import Mathlib

set_option autoImplicit false

/-!
# Verification of the termenu menu engine

Shallow embedding of the termenu repository (Python):
* `src/termenu/app.py`    — `TermenuAdapter` (filtering, selection preservation,
  timeout/refresh signals) and `AppMenu` (navigation-stack signal handling);
* `src/termenu2/termenu.py` — `Termenu` (cursor/scroll movement, result extraction);
* `src/termenu/colors.py` — `Colorized` markup text model (parse, slice);
* `src/termenu/keyboard.py` — key decoding and the `RawTerminal` refcounted resource.

Python strings are embedded as `List Char`; Python ints as `Int` (arbitrary
precision, so no wraparound); fallible operations return `Option`.
-/

namespace TermenuSpec

/-! ## Strings: Python `needle in hay` and prefix tests -/

/-- Python `hay.startswith(needle)` / `hay[:len(needle)] == needle`. -/
def startsWith : List Char → List Char → Bool
  | [], _ => true
  | _ :: _, [] => false
  | a :: as, b :: bs => a == b && startsWith as bs

/-- Python substring test `needle in hay`. -/
def subOf (needle : List Char) : List Char → Bool
  | [] => needle.isEmpty
  | c :: rest => startsWith needle (c :: rest) || subOf needle rest

/-! ## Options and filtering (`TermenuAdapter._refilter`, src/termenu/app.py)

`TermenuAdapter._Option` carries a display text, an opaque result value
(compared by equality), a `selected` flag, the attributes `showAlways`,
`selectable`, `markable`, and a precomputed lower-cased `filter_text`
(`(attrs.get('filter_text') or self.text.uncolored).lower()` — we take the
precomputed field as given).  The `synthetic` flag models the object identity
of the placeholder option that `_refilter` constructs freshly with
`self._Option(" (No match for ...)")`: no caller-supplied option is that
object. -/

structure MenuOption where
  text : List Char
  result : List Char
  filter_text : List Char
  selected : Bool := false
  showAlways : Bool := false
  selectable : Bool := true
  markable : Bool := true
  synthetic : Bool := false
deriving Repr, DecidableEq

/-- The four filter modes, `TermenuAdapter.FILTER_MODES = ["and", "nand", "or", "nor"]`. -/
inductive FilterMode
  | and | nand | or | nor
deriving Repr, DecidableEq

/-- The per-mode predicate `pred` built in `_refilter`:
`and` requires every term to occur in the option's filter text, `or` any,
`nand`/`nor` are the negations. -/
def modePred (mode : FilterMode) (texts : List (List Char)) (o : MenuOption) : Bool :=
  match mode with
  | .and  => texts.all (fun t => subOf t o.filter_text)
  | .nand => !texts.all (fun t => subOf t o.filter_text)
  | .or   => texts.any (fun t => subOf t o.filter_text)
  | .nor  => !texts.any (fun t => subOf t o.filter_text)

/-- Python `"".join(text).lower().split(",")` at the character level. -/
def splitOnComma : List Char → List (List Char)
  | [] => [[]]
  | c :: rest =>
    if c = ',' then [] :: splitOnComma rest
    else
      match splitOnComma rest with
      | [] => [[c]]
      | p :: ps => (c :: p) :: ps

/-- `texts = set(filter(None, "".join(self.text or []).lower().split(",")))`:
lower-case, split on the separator, drop empty terms.  (The Python `set` only
feeds `all`/`any`/emptiness tests, which are insensitive to duplication and
order, so a list represents it faithfully.) -/
def filterTerms (text : List Char) : List (List Char) :=
  (splitOnComma (text.map Char.toLower)).filter (fun t => !t.isEmpty)

/-- The membership test of `_refilter`'s main loop:
`option.attrs.get("showAlways") or not texts or pred(option)`. -/
def visiblePred (texts : List (List Char)) (mode : FilterMode) (o : MenuOption) : Bool :=
  o.showAlways || texts.isEmpty || modePred mode texts o

/-- Python `" , ".join(map(repr, texts))` made concrete enough for the
placeholder's text; the claims never inspect this string. -/
def joinTerms : List (List Char) → List Char
  | [] => []
  | [t] => t
  | t :: ts => t ++ (' ' :: ',' :: ' ' :: joinTerms ts)

/-- The synthetic option `_refilter` appends when nothing matches:
`self._Option(" (No match for RED<<%s>>; WHITE@{<ESC>}@ to reset filter)" % ...)`. -/
def placeholderOption (texts : List (List Char)) : MenuOption :=
  let t := (" (No match for RED<<".toList ++ joinTerms texts
            ++ ">>; WHITE@{<ESC>}@ to reset filter)".toList)
  { text := t, result := t, filter_text := t.map Char.toLower, synthetic := true }

/-- Output state of `_refilter`: the rebuilt visible list, cursor, scroll and
the `is_empty` flag.  The cursor is only assigned when some non-`showAlways`
option matches; otherwise it retains its previous value (`prevCursor`). -/
structure RefilterOut where
  options : List MenuOption
  cursor : Nat
  scroll : Nat
  is_empty : Bool
deriving Repr, DecidableEq

/-- `TermenuAdapter._refilter` (src/termenu/app.py, lines 413–441), minus the
selection-preserving wrapper (modelled separately): rebuild `self.options`
from `self._allOptions` under the mode predicate, reset scroll, place the
cursor on the first matching non-`showAlways` option, or enter the `is_empty`
state and append the placeholder. -/
def refilter (texts : List (List Char)) (mode : FilterMode)
    (allOptions : List MenuOption) (prevCursor : Nat) : RefilterOut :=
  let visible := allOptions.filter (visiblePred texts mode)
  match visible.findIdx? (fun o => !o.showAlways && modePred mode texts o) with
  | some i => { options := visible, cursor := i, scroll := 0, is_empty := false }
  | none   => { options := visible ++ [placeholderOption texts],
                cursor := prevCursor, scroll := 0, is_empty := true }

/-- The decision taken by `TermenuAdapter._on_key` for `key == "enter"`
(src/termenu/app.py, lines 264–316): the earlier branches (`space`, `*`,
single printable characters, `backspace`, `esc`, `end`) all fail their tests
for the five-character string `"enter"`; then
`elif key == "enter" and self.is_empty: bubble_up = False` fires when the menu
is empty; otherwise the key reaches the app-hook branch
(`callable(getattr(self.app, "on_enter", None))`) and, absent a hook, bubbles
up to the base class, whose dispatch calls `_on_enter` (which stops the loop).
Returns whether the key bubbles up. -/
def enterBubblesUp (is_empty appHasEnterHook : Bool) : Bool :=
  if is_empty then false
  else if appHasEnterHook then false
  else true

/-! ### Helper lemmas on `findIdx?` -/

theorem findIdx?_eq_none_of_all {α : Type} (p : α → Bool) (l : List α)
    (h : ∀ x ∈ l, p x = false) : l.findIdx? p = none := by
  induction l with
  | nil => rfl
  | cons a t ih =>
    have ha : p a = false := h a (List.mem_cons_self a t)
    simp only [List.findIdx?_cons, ha, cond_false]
    have := ih (fun x hx => h x (List.mem_cons_of_mem a hx))
    simp [this]

/-! ### C1 — exact visibility under the four filter modes -/

/-- **C1.** For every option list and every filter text, re-filtering makes
visible exactly the (caller-supplied, non-synthetic) options satisfying the
mode predicate over the lower-cased term set — all terms under `and`, any
term under `or`, the negations under `nand`/`nor` — while `showAlways`
options are visible under every mode regardless of the predicate, and an
empty term set makes every option visible under every mode (the right-hand
side degenerates to plain membership when `filterTerms text = []`). -/
theorem refilter_visible_exact (text : List Char) (mode : FilterMode)
    (allOptions : List MenuOption) (pc : Nat) (o : MenuOption)
    (ho : o.synthetic = false) :
    (o ∈ (refilter (filterTerms text) mode allOptions pc).options ↔
      (o ∈ allOptions ∧ (o.showAlways = true ∨ filterTerms text = [] ∨
        modePred mode (filterTerms text) o = true))) := by
  unfold refilter
  have hph : (placeholderOption (filterTerms text)).synthetic = true := rfl
  have hne : o ≠ placeholderOption (filterTerms text) := by
    intro he; rw [he] at ho; rw [hph] at ho; exact Bool.false_ne_true ho.symm
  cases hfi : (allOptions.filter (visiblePred (filterTerms text) mode)).findIdx?
      (fun o => !o.showAlways && modePred mode (filterTerms text) o) with
  | some i =>
    simp only [hfi, List.mem_filter, visiblePred, Bool.or_eq_true,
      List.isEmpty_iff, or_assoc]
  | none =>
    simp only [hfi, List.mem_append, List.mem_singleton, List.mem_filter,
      visiblePred, Bool.or_eq_true, List.isEmpty_iff, or_assoc]
    constructor
    · rintro (h | h)
      · exact h
      · exact absurd h hne
    · intro h; exact Or.inl h

/-- Sample inputs used by witnesses. -/
def optA : MenuOption :=
  { text := "alpha".toList, result := "alpha".toList, filter_text := "alpha".toList }

def optB : MenuOption :=
  { text := "beta".toList, result := "beta".toList, filter_text := "beta".toList }

/-- Witness for C1 at a concrete input: options `alpha`, `beta`, filter `"al"`,
mode `and`: `alpha` is visible and the characterization holds. -/
theorem refilter_visible_exact_witness :
    (optA ∈ (refilter (filterTerms "al".toList) .and [optA, optB] 0).options ↔
      (optA ∈ [optA, optB] ∧ (optA.showAlways = true ∨ filterTerms "al".toList = [] ∨
        modePred .and (filterTerms "al".toList) optA = true))) :=
  refilter_visible_exact "al".toList .and [optA, optB] 0 optA rfl

/-! ### C7 — the empty-filter state -/

/-- **C7.** If the mode predicate is satisfied by no option, the window enters
the `is_empty` state, the rebuilt list is the surviving (`showAlways` /
empty-term-set) options followed by exactly one synthetic placeholder, and a
subsequent `enter` key does not bubble up to the base class — so it can never
reach `_on_enter`, terminate the menu loop, or produce a selection. -/
theorem refilter_no_match (texts : List (List Char)) (mode : FilterMode)
    (allOptions : List MenuOption) (pc : Nat)
    (hall : ∀ o ∈ allOptions, o.synthetic = false)
    (h : ∀ o ∈ allOptions, modePred mode texts o = false) :
    (refilter texts mode allOptions pc).is_empty = true ∧
    (refilter texts mode allOptions pc).options =
      allOptions.filter (visiblePred texts mode) ++ [placeholderOption texts] ∧
    ((refilter texts mode allOptions pc).options.countP (fun o => o.synthetic)) = 1 ∧
    (∀ hook : Bool, enterBubblesUp (refilter texts mode allOptions pc).is_empty hook = false) := by
  have hnone : (allOptions.filter (visiblePred texts mode)).findIdx?
      (fun o => !o.showAlways && modePred mode texts o) = none := by
    apply findIdx?_eq_none_of_all
    intro x hx
    have hx' : x ∈ allOptions := (List.mem_filter.1 hx).1
    have := h x hx'
    simp [this]
  have hcount : ((allOptions.filter (visiblePred texts mode)
      ++ [placeholderOption texts]).countP (fun o => o.synthetic)) = 1 := by
    rw [List.countP_append]
    have h0 : (allOptions.filter (visiblePred texts mode)).countP
        (fun o => o.synthetic) = 0 := by
      rw [List.countP_eq_zero]
      intro x hx
      have hx' : x ∈ allOptions := (List.mem_filter.1 hx).1
      simp [hall x hx']
    rw [h0]
    rfl
  refine ⟨?_, ?_, ?_, ?_⟩
  · simp only [refilter, hnone]
  · simp only [refilter, hnone]
  · simp only [refilter, hnone]; exact hcount
  · intro hook; simp only [refilter, hnone]; rfl

/-- Witness for C7: options `alpha`, `beta` with filter term `"zz"`, mode
`and`: the empty state is entered, exactly one placeholder is appended and
`enter` is suppressed. -/
theorem refilter_no_match_witness :
    (refilter ["zz".toList] .and [optA, optB] 0).is_empty = true ∧
    (refilter ["zz".toList] .and [optA, optB] 0).options =
      [optA, optB].filter (visiblePred ["zz".toList] .and) ++ [placeholderOption ["zz".toList]] ∧
    ((refilter ["zz".toList] .and [optA, optB] 0).options.countP (fun o => o.synthetic)) = 1 ∧
    (∀ hook : Bool, enterBubblesUp (refilter ["zz".toList] .and [optA, optB] 0).is_empty hook = false) :=
  refilter_no_match ["zz".toList] .and [optA, optB] 0
    (by intro o ho; fin_cases ho <;> rfl)
    (by intro o ho; fin_cases ho <;> rfl)

/-! ## Cursor movement (`Termenu`, src/termenu2/termenu.py, lines 133–162, and
`TermenuAdapter._on_end`, src/termenu/app.py, lines 346–349)

Cursor and scroll are Python ints; we embed them as `Int` so that guarded
subtractions (`self.scroll - height >= 0`) keep their Python meaning. -/

/-- The mutable window position: `self.cursor` and `self.scroll`. -/
structure Win where
  cursor : Int
  scroll : Int
deriving Repr, DecidableEq

/-- `Termenu._on_down`: `height = min(self.height, len(self.options))`;
advance the cursor while below `height - 1`, else advance the scroll while
more options exist below. -/
def onDown (height n : Int) (w : Win) : Win :=
  if w.cursor < min height n - 1 then { w with cursor := w.cursor + 1 }
  else if w.scroll + min height n < n then { w with scroll := w.scroll + 1 }
  else w

/-- `Termenu._on_up`. -/
def onUp (w : Win) : Win :=
  if w.cursor > 0 then { w with cursor := w.cursor - 1 }
  else if w.scroll > 0 then { w with scroll := w.scroll - 1 }
  else w

/-- `Termenu._on_pageDown`. -/
def onPageDown (height n : Int) (w : Win) : Win :=
  if w.cursor < min height n - 1 then { w with cursor := min height n - 1 }
  else if w.scroll + min height n * 2 < n then { w with scroll := w.scroll + min height n }
  else { w with scroll := n - min height n }

/-- `Termenu._on_pageUp`. -/
def onPageUp (height n : Int) (w : Win) : Win :=
  if w.cursor > 0 then { w with cursor := 0 }
  else if w.scroll - min height n ≥ 0 then { w with scroll := w.scroll - min height n }
  else { w with scroll := 0 }

/-- `TermenuAdapter._on_end` (src/termenu/app.py):
`height = min(self.height, len(self.options)); self.scroll = len(self.options) - height;
self.cursor = height - 1`. -/
def onEnd (height n : Int) (_ : Win) : Win :=
  { cursor := min height n - 1, scroll := n - min height n }

/-- The five cursor-move operations of claim C2. -/
inductive Move
  | down | up | pageDown | pageUp | toEnd
deriving Repr, DecidableEq

def applyMove (height n : Int) (w : Win) : Move → Win
  | .down => onDown height n w
  | .up => onUp w
  | .pageDown => onPageDown height n w
  | .pageUp => onPageUp height n w
  | .toEnd => onEnd height n w

/-- The inductive invariant maintained by every move: the cursor stays inside
the (clamped) window and the window stays inside the option list. -/
def WinInv (height n : Int) (w : Win) : Prop :=
  0 ≤ w.cursor ∧ w.cursor < min height n ∧ 0 ≤ w.scroll ∧ w.scroll + min height n ≤ n

theorem winInv_onDown (height n : Int) (w : Win) (h : WinInv height n w) :
    WinInv height n (onDown height n w) := by
  obtain ⟨h1, h2, h3, h4⟩ := h
  unfold onDown WinInv
  split_ifs <;> first
    | (dsimp only; omega)
    | omega

theorem winInv_onUp (height n : Int) (w : Win) (h : WinInv height n w) :
    WinInv height n (onUp w) := by
  obtain ⟨h1, h2, h3, h4⟩ := h
  unfold onUp WinInv
  split_ifs <;> first
    | (dsimp only; omega)
    | omega

theorem winInv_onPageDown (height n : Int) (w : Win) (_hn : 1 ≤ n) (_hh : 1 ≤ height)
    (h : WinInv height n w) : WinInv height n (onPageDown height n w) := by
  obtain ⟨h1, h2, h3, h4⟩ := h
  unfold onPageDown WinInv
  split_ifs <;> dsimp only <;> omega

theorem winInv_onPageUp (height n : Int) (w : Win) (_hn : 1 ≤ n) (_hh : 1 ≤ height)
    (h : WinInv height n w) : WinInv height n (onPageUp height n w) := by
  obtain ⟨h1, h2, h3, h4⟩ := h
  unfold onPageUp WinInv
  split_ifs <;> dsimp only <;> omega

theorem winInv_onEnd (height n : Int) (w : Win) (hn : 1 ≤ n) (hh : 1 ≤ height) :
    WinInv height n (onEnd height n w) := by
  unfold onEnd WinInv
  dsimp only
  omega

theorem winInv_applyMove (height n : Int) (w : Win) (m : Move) (hn : 1 ≤ n) (hh : 1 ≤ height)
    (h : WinInv height n w) : WinInv height n (applyMove height n w m) := by
  cases m with
  | down => exact winInv_onDown height n w h
  | up => exact winInv_onUp height n w h
  | pageDown => exact winInv_onPageDown height n w hn hh h
  | pageUp => exact winInv_onPageUp height n w hn hh h
  | toEnd => exact winInv_onEnd height n w hn hh

theorem winInv_foldl (height n : Int) (hn : 1 ≤ n) (hh : 1 ≤ height)
    (ms : List Move) (w : Win) (h : WinInv height n w) :
    WinInv height n (ms.foldl (applyMove height n) w) := by
  induction ms generalizing w with
  | nil => exact h
  | cons m rest ih =>
    exact ih (applyMove height n w m) (winInv_applyMove height n w m hn hh h)

/-! ### C2 — the cursor/scroll invariant -/

/-- **C2.** Starting from the freshly constructed window
(`self.cursor = 0; self.scroll = 0`, src/termenu2/termenu.py, `__init__`),
with a non-empty visible option list (`1 ≤ n`) and a positive configured
height, after every finite sequence of cursor moves (down, up, pageDown,
pageUp, end) the cursor satisfies `0 ≤ cursor < n` and
`scroll + cursor < n`. -/
theorem cursor_invariant (height n : Int) (hh : 1 ≤ height) (hn : 1 ≤ n)
    (ms : List Move) :
    0 ≤ (ms.foldl (applyMove height n) ⟨0, 0⟩).cursor ∧
    (ms.foldl (applyMove height n) ⟨0, 0⟩).cursor < n ∧
    (ms.foldl (applyMove height n) ⟨0, 0⟩).scroll +
      (ms.foldl (applyMove height n) ⟨0, 0⟩).cursor < n := by
  have h0 : WinInv height n ⟨0, 0⟩ := by
    unfold WinInv; dsimp only; omega
  obtain ⟨h1, h2, h3, h4⟩ := winInv_foldl height n hn hh ms ⟨0, 0⟩ h0
  omega

/-- Witness for C2: height 3, five options, a concrete move sequence. -/
theorem cursor_invariant_witness :
    0 ≤ (([Move.down, .down, .down, .pageDown, .up, .toEnd, .pageUp].foldl
        (applyMove 3 5) ⟨0, 0⟩)).cursor ∧
    (([Move.down, .down, .down, .pageDown, .up, .toEnd, .pageUp].foldl
        (applyMove 3 5) ⟨0, 0⟩)).cursor < 5 ∧
    (([Move.down, .down, .down, .pageDown, .up, .toEnd, .pageUp].foldl
        (applyMove 3 5) ⟨0, 0⟩)).scroll +
      (([Move.down, .down, .down, .pageDown, .up, .toEnd, .pageUp].foldl
        (applyMove 3 5) ⟨0, 0⟩)).cursor < 5 :=
  cursor_invariant 3 5 (by decide) (by decide)
    [Move.down, .down, .down, .pageDown, .up, .toEnd, .pageUp]

/-! ## Result extraction (`Termenu.get_result` / `Termenu._on_esc`,
src/termenu2/termenu.py, lines 53–60 and 171–176) -/

/-- `Termenu.Option` of src/termenu2/termenu.py: display text, result value,
selected flag. -/
structure T2Option where
  text : List Char
  result : List Char
  selected : Bool := false
deriving Repr, DecidableEq

/-- `[o.result for o in self.options if o.selected]`. -/
def selectedResults (options : List T2Option) : List (List Char) :=
  (options.filter (fun o => o.selected)).map (fun o => o.result)

/-- `Termenu.get_result`: `None` when aborted; otherwise the selected results
in order, falling back to the active option's result when nothing is
selected.  `pos = scroll + cursor` is the active index
(`_get_active_option`); a missing active option (empty list) is the Python
`AttributeError` crash, embedded as `none`. -/
def get_result (aborted : Bool) (options : List T2Option) (pos : Nat) :
    Option (List (List Char)) :=
  if aborted then none
  else if selectedResults options = [] then
    (options.get? pos).map (fun o => [o.result])
  else some (selectedResults options)

/-- The interaction loop of `Termenu.show`: `_on_key` dispatches to
`_on_<key>`; only `_on_esc` (which sets `self._aborted = True`) and
`_on_enter` return `True` and stop the loop.  Returns `some aborted` when
the loop ends, `none` if the key stream runs out first. -/
def sessionAborted : List (List Char) → Option Bool
  | [] => none
  | k :: rest =>
    if k = "esc".toList then some true
    else if k = "enter".toList then some false
    else sessionAborted rest

/-! ### C10 — result of a finished interaction loop -/

/-- **C10.** For a menu whose loop has ended (`sessionAborted keys = some ab`)
with a valid active index: the result is `None` exactly when the session was
aborted via escape; otherwise it is the list of result values of the
selected options in order, and when no option is selected it is the
one-element list holding the active option's result value. -/
theorem get_result_spec (keys : List (List Char)) (options : List T2Option)
    (pos : Nat) (ab : Bool)
    (hend : sessionAborted keys = some ab) (hpos : pos < options.length) :
    ((get_result ab options pos = none) ↔ sessionAborted keys = some true) ∧
    (ab = false → selectedResults options ≠ [] →
      get_result ab options pos = some (selectedResults options)) ∧
    (ab = false → selectedResults options = [] →
      ∃ a, options.get? pos = some a ∧ get_result ab options pos = some [a.result]) := by
  obtain ⟨a, ha⟩ : ∃ a, options.get? pos = some a := by
    rw [List.get?_eq_get hpos]; exact ⟨_, rfl⟩
  cases ab with
  | true =>
    refine ⟨?_, ?_, ?_⟩
    · rw [hend]
      constructor
      · intro _; rfl
      · intro _; rfl
    · intro h _; exact absurd h (by decide)
    · intro h _; exact absurd h (by decide)
  | false =>
    refine ⟨?_, ?_, ?_⟩
    · rw [hend]
      constructor
      · intro hc
        exfalso
        unfold get_result at hc
        rw [if_neg (by decide)] at hc
        by_cases hsel : selectedResults options = []
        · rw [if_pos hsel, ha] at hc; exact Option.noConfusion hc
        · rw [if_neg hsel] at hc; exact Option.noConfusion hc
      · intro hc; exact absurd hc (by simp)
    · intro _ hsel
      unfold get_result
      rw [if_neg (by decide), if_neg hsel]
    · intro _ hsel
      refine ⟨a, ha, ?_⟩
      unfold get_result
      rw [if_neg (by decide), if_pos hsel, ha]
      rfl

/-- A sample option for witnesses. -/
def t2A : T2Option := { text := "a".toList, result := "a".toList }

/-- Witness for C10: loop ended by `esc` after a `down`; one option. -/
theorem get_result_spec_witness :
    ((get_result true [t2A] 0 = none) ↔
      sessionAborted ["down".toList, "esc".toList] = some true) ∧
    (true = false → selectedResults [t2A] ≠ [] →
      get_result true [t2A] 0 = some (selectedResults [t2A])) ∧
    (true = false → selectedResults [t2A] = [] →
      ∃ a, [t2A].get? 0 = some a ∧ get_result true [t2A] 0 = some [a.result]) :=
  get_result_spec ["down".toList, "esc".toList] [t2A] 0 true (by decide) (by decide)

/-! ## Back-signal propagation (`AppMenu._menu_loop`, src/termenu/app.py,
lines 614–634, and `AppMenu.back`, lines 692–695)

A child menu's `_menu_loop` runs inside the parent's `on_selected`.  A
`BackSignal{levels, refresh}` raised during selection handling is caught by
the raising frame's inner handler: `if e.levels: e.levels -= 1; raise`
re-raises it after decrementing, and the outer handler
(`except (QuitSignal, BackSignal): if self.parent: raise`) forwards it to the
parent frame — whose finally-block pops the frame — or swallows it at the
bottom of the stack, ending the session.  A frame receiving `levels = 0`
resumes its loop with `self.refresh = e.refresh`. -/

/-- Outcome of propagating a Back signal up the frame stack. -/
inductive BackOutcome (α : Type)
  | resume (frame : α) (refresh : Bool)
  | sessionEnd
deriving Repr, DecidableEq

/-- Propagation of `BackSignal{levels, refresh}` raised inside the selection
handling of the top frame of `stack` (top first). -/
def propagateBack {α : Type} : List α → Nat → Bool → BackOutcome α
  | [], _, _ => .sessionEnd
  | f :: rest, levels, refresh =>
    if levels ≠ 0 then
      match rest with
      | [] => .sessionEnd
      | _ :: _ => propagateBack rest (levels - 1) refresh
    else .resume f refresh

/-! ### C5 — `Back{levels}` pops `levels` frames and resumes the ancestor -/

/-- **C5.** A `Back` with a given level count raised from the top frame's
selection handling is decremented and re-raised at each intermediate frame
(popping it without re-entering its loop body), and the frame at depth
`levels` — where the count has reached zero — resumes its loop with the
signal's refresh flag.  In particular for frames A→B→C (stack `[C, B, A]`),
`Back{levels := 2}` pops C and B and resumes A with a refresh. -/
theorem back_levels {α : Type} (stack : List α) (L : Nat) (refresh : Bool)
    (h : L < stack.length) :
    propagateBack stack L refresh = .resume (stack.get ⟨L, h⟩) refresh := by
  induction stack generalizing L with
  | nil => exact absurd h (by simp)
  | cons f rest ih =>
    cases L with
    | zero => rfl
    | succ L' =>
      have hL : L' < rest.length := by
        simpa [Nat.succ_lt_succ_iff] using h
      have hrest : rest ≠ [] := by
        intro he; rw [he] at hL; exact absurd hL (by simp)
      unfold propagateBack
      cases rest with
      | nil => exact absurd rfl hrest
      | cons g rest' =>
        simp only [if_pos (Nat.succ_ne_zero L'), Nat.succ_sub_one]
        exact ih L' hL

/-- Witness for C5: the nested frames A→B→C scenario, `Back{levels := 2,
refresh := true}` raised from C resumes A with a refresh. -/
theorem back_levels_witness :
    propagateBack ["C", "B", "A"] 2 true = .resume "A" true :=
  back_levels ["C", "B", "A"] 2 true (by decide)

/-! ## Timeout synthesis (`TermenuAdapter`, src/termenu/app.py)

`__init__` arms `self.timeout = time.time() + app.timeout`.  `_on_key`
(lines 264–267) clears it on any non-heartbeat key:
`if not key == "heartbeat": self.timeout = None`.  A heartbeat reaches
`_on_heartbeat` (line 364), which calls `refresh("heartbeat")`
(lines 351–356): with an armed deadline and `now > self.timeout` it raises
`TimeoutSignal`; otherwise it raises `RefreshSignal`.  In `_menu_loop` a
`RefreshSignal` just redisplays the frame and the loop continues, while a
`TimeoutSignal` is converted into `AppMenu.TimeoutSignal` and terminates the
frame — so no further events of this menu are processed. -/

inductive KEvent
  | heartbeat
  | key (k : List Char)
deriving Repr, DecidableEq

inductive HostSig
  | timeoutSig | refreshSig
deriving Repr, DecidableEq

/-- `TermenuAdapter.refresh`: raise Timeout past the deadline, else Refresh. -/
def refreshSignal (deadline : Option Int) (now : Int) : HostSig :=
  match deadline with
  | some d => if now > d then .timeoutSig else .refreshSig
  | none => .refreshSig

/-- One incoming event: a non-heartbeat key disarms the deadline and raises
nothing; a heartbeat raises what `refresh("heartbeat")` raises. -/
def stepEvent (deadline : Option Int) (now : Int) :
    KEvent → Option Int × Option HostSig
  | .heartbeat => (deadline, some (refreshSignal deadline now))
  | .key _ => (none, none)

/-- Process a timed event stream; a `TimeoutSignal` ends the frame, so the
run stops there. -/
def runEvents (deadline : Option Int) : List (Int × KEvent) → List HostSig
  | [] => []
  | (now, ev) :: rest =>
    match stepEvent deadline now ev with
    | (_, some .timeoutSig) => [.timeoutSig]
    | (d', some .refreshSig) => .refreshSig :: runEvents d' rest
    | (d', none) => runEvents d' rest

def timeoutCount (sigs : List HostSig) : Nat :=
  sigs.countP (fun s => s == .timeoutSig)

theorem runEvents_none_no_timeout (evs : List (Int × KEvent)) :
    timeoutCount (runEvents none evs) = 0 := by
  induction evs with
  | nil => rfl
  | cons e rest ih =>
    obtain ⟨now, ev⟩ := e
    cases ev with
    | heartbeat => simpa [runEvents, stepEvent, refreshSignal, timeoutCount] using ih
    | key k => simpa [runEvents, stepEvent, timeoutCount] using ih

theorem timeoutCount_le_one (deadline : Option Int) (evs : List (Int × KEvent)) :
    timeoutCount (runEvents deadline evs) ≤ 1 := by
  induction evs generalizing deadline with
  | nil => simp [runEvents, timeoutCount]
  | cons e rest ih =>
    obtain ⟨now, ev⟩ := e
    cases ev with
    | heartbeat =>
      cases deadline with
      | none => simpa [runEvents, stepEvent, refreshSignal, timeoutCount] using ih none
      | some d =>
        by_cases hd : now > d
        · simp [runEvents, stepEvent, refreshSignal, hd, timeoutCount]
        · simpa [runEvents, stepEvent, refreshSignal, hd, timeoutCount] using ih (some d)
    | key k => simpa [runEvents, stepEvent, timeoutCount] using ih none

/-! ### C6 — the timeout fires exactly once, and keys cancel it -/

/-- **C6.** For a frame armed with deadline `d`: (a) at most one `Timeout`
signal is ever raised; (b) if only heartbeat events arrive, exactly one
`Timeout` is raised iff some heartbeat arrives past the deadline (`now > d`,
i.e. when the deadline elapses) — and none before; (c) a non-heartbeat key
arriving while all earlier events were heartbeats at or before the deadline
cancels the pending timeout: no `Timeout` is ever raised for that deadline. -/
theorem timeout_once (d : Int) (evs : List (Int × KEvent)) :
    timeoutCount (runEvents (some d) evs) ≤ 1 ∧
    ((∀ e ∈ evs, e.2 = KEvent.heartbeat) →
      (timeoutCount (runEvents (some d) evs) = 1 ↔ ∃ e ∈ evs, e.1 > d)) ∧
    (∀ pre tk k post, evs = pre ++ (tk, KEvent.key k) :: post →
      (∀ e ∈ pre, e.2 = KEvent.heartbeat ∧ e.1 ≤ d) →
      timeoutCount (runEvents (some d) evs) = 0) := by
  refine ⟨timeoutCount_le_one (some d) evs, ?_, ?_⟩
  · intro hall
    induction evs with
    | nil => simp [runEvents, timeoutCount]
    | cons e rest ih =>
      obtain ⟨now, ev⟩ := e
      have hhb : ev = KEvent.heartbeat := hall (now, ev) (List.mem_cons_self _ _)
      subst hhb
      by_cases hd : now > d
      · simp only [runEvents, stepEvent, refreshSignal, if_pos hd]
        constructor
        · intro _; exact ⟨(now, .heartbeat), List.mem_cons_self _ _, hd⟩
        · intro _; rfl
      · simp only [runEvents, stepEvent, refreshSignal, if_neg hd]
        have ih' := ih (fun e he => hall e (List.mem_cons_of_mem _ he))
        have hcnt : timeoutCount (HostSig.refreshSig :: runEvents (some d) rest) =
            timeoutCount (runEvents (some d) rest) := by
          simp [timeoutCount]
        rw [hcnt, ih']
        constructor
        · rintro ⟨e, he, hgt⟩; exact ⟨e, List.mem_cons_of_mem _ he, hgt⟩
        · rintro ⟨e, he, hgt⟩
          rcases List.mem_cons.1 he with he | he
          · rw [he] at hgt; exact absurd hgt hd
          · exact ⟨e, he, hgt⟩
  · intro pre tk k post heq hpre
    subst heq
    induction pre with
    | nil =>
      simp only [List.nil_append, runEvents, stepEvent]
      exact runEvents_none_no_timeout post
    | cons e pre' ih =>
      obtain ⟨now, ev⟩ := e
      obtain ⟨hhb, hle⟩ := hpre (now, ev) (List.mem_cons_self _ _)
      subst hhb
      have hd : ¬ now > d := by omega
      simp only [List.cons_append, runEvents, stepEvent, refreshSignal, if_neg hd]
      have ih' := ih (fun e he => hpre e (List.mem_cons_of_mem _ he))
      simpa [timeoutCount] using ih'

/-- Witness for C6: deadline 5; heartbeats at times 1 and 6 yield exactly one
`Timeout`; a key at time 0 followed by heartbeats at 6 and 7 yields none. -/
theorem timeout_once_witness :
    timeoutCount (runEvents (some 5) [(1, KEvent.heartbeat), (6, KEvent.heartbeat)]) = 1 ∧
    timeoutCount (runEvents (some 5)
      [(0, KEvent.key ['a']), (6, KEvent.heartbeat), (7, KEvent.heartbeat)]) = 0 := by
  constructor
  · exact ((timeout_once 5 [(1, KEvent.heartbeat), (6, KEvent.heartbeat)]).2.1
      (by intro e he; fin_cases he <;> rfl)).2
      ⟨(6, KEvent.heartbeat), by simp, by norm_num⟩
  · exact (timeout_once 5 [(0, KEvent.key ['a']), (6, KEvent.heartbeat),
      (7, KEvent.heartbeat)]).2.2 [] 0 ['a'] [(6, KEvent.heartbeat), (7, KEvent.heartbeat)]
      rfl (by intro e he; exact absurd he (by simp))

/-! ## Key-sequence decoding (`keyboard_listener`, src/termenu/keyboard.py,
lines 187–198)

```
for seq in list(ANSI_SEQUENCES.values()):
    if sequence[:len(seq)] == seq:
        yield KEY_NAMES[seq]
        sequence = sequence[len(seq):]
        break
```
The table is a Python dict iterated in insertion order; the first entry whose
byte sequence is a prefix of the pending buffer wins, and exactly its bytes
are consumed. -/

/-- One decode step: the first table entry `(seq, name)` with `seq` a prefix
of `buffer` yields `name` and the remaining buffer. -/
def decodeStep (table : List (List Char × List Char)) (buffer : List Char) :
    Option (List Char × List Char) :=
  match table with
  | [] => none
  | (seq, name) :: rest =>
    if startsWith seq buffer then some (name, buffer.drop seq.length)
    else decodeStep rest buffer

/-- No configured sequence is a proper prefix of another: within the table,
one sequence starting another forces them equal.  (True of the default
`ANSI_SEQUENCES` table.) -/
def PrefixFreeTable (table : List (List Char × List Char)) : Prop :=
  ∀ p₁ ∈ table, ∀ p₂ ∈ table, startsWith p₁.1 p₂.1 = true → p₁.1 = p₂.1

theorem startsWith_comparable (s t b : List Char)
    (hs : startsWith s b = true) (ht : startsWith t b = true) :
    startsWith s t = true ∨ startsWith t s = true := by
  induction b generalizing s t with
  | nil =>
    cases s with
    | nil => exact Or.inl rfl
    | cons a as => exact absurd hs (by simp [startsWith])
  | cons c cs ih =>
    cases s with
    | nil => exact Or.inl rfl
    | cons a as =>
      cases t with
      | nil => exact Or.inr rfl
      | cons a' as' =>
        simp only [startsWith, Bool.and_eq_true, beq_iff_eq] at hs ht
        rcases ih as as' hs.2 ht.2 with h | h
        · exact Or.inl (by simp [startsWith, hs.1, ht.1, h])
        · exact Or.inr (by simp [startsWith, hs.1, ht.1, h])

/-! ### C8 — longest-match-first is NOT what the code does -/

/-- Counterexample to C8 as stated: with the configured table
`[("ab", k1), ("abc", k2)]` and pending buffer `"abc"`, both sequences match
as a prefix (one a prefix of the other), but the decoder emits `k1` — the
*first* configured sequence, which is the *shorter* one — consuming two
bytes, not the longest match `k2`. -/
theorem decode_longest_cex :
    startsWith "ab".toList "abc".toList = true ∧
    startsWith "abc".toList "abc".toList = true ∧
    decodeStep [("ab".toList, "k1".toList), ("abc".toList, "k2".toList)] "abc".toList
      = some ("k1".toList, "c".toList) ∧
    decodeStep [("ab".toList, "k1".toList), ("abc".toList, "k2".toList)] "abc".toList
      ≠ some ("k2".toList, ([] : List Char)) := by
  refine ⟨rfl, rfl, rfl, ?_⟩
  decide

/-- **C8 (amended).** The decoder emits the *first* table entry (in insertion
order) whose sequence is a prefix of the buffer and consumes exactly its
bytes; when no configured sequence is a proper prefix of another — as in the
default `ANSI_SEQUENCES` table — every emitted match is also a longest
match, so the resolution coincides with longest-match-first.  With
conflicting user overrides, table order decides, not length. -/
theorem decode_first_match (table : List (List Char × List Char))
    (buffer name rest : List Char)
    (h : decodeStep table buffer = some (name, rest)) :
    ∃ seq, (seq, name) ∈ table ∧ startsWith seq buffer = true ∧
      rest = buffer.drop seq.length ∧
      (PrefixFreeTable table →
        ∀ p ∈ table, startsWith p.1 buffer = true → p.1.length ≤ seq.length) := by
  induction table with
  | nil => exact absurd h (by simp [decodeStep])
  | cons e table' ih =>
    obtain ⟨seq₀, name₀⟩ := e
    by_cases hsw : startsWith seq₀ buffer = true
    · have hres : name₀ = name ∧ buffer.drop seq₀.length = rest := by
        have := h
        simp only [decodeStep, if_pos hsw, Option.some.injEq, Prod.mk.injEq] at this
        exact this
      refine ⟨seq₀, ?_, hsw, hres.2.symm, ?_⟩
      · rw [hres.1]; exact List.mem_cons_self _ _
      · intro hpf p hp hpsw
        have hcmp := startsWith_comparable p.1 seq₀ buffer hpsw hsw
        have hmem₀ : ((seq₀, name₀) : List Char × List Char) ∈ (seq₀, name₀) :: table' :=
          List.mem_cons_self _ _
        rcases hcmp with hc | hc
        · have := hpf p hp (seq₀, name₀) hmem₀ hc
          rw [this]
        · have := hpf (seq₀, name₀) hmem₀ p hp hc
          rw [← this]
    · have h' : decodeStep table' buffer = some (name, rest) := by
        have := h
        simp only [decodeStep, if_neg hsw] at this
        exact this
      obtain ⟨seq, hmem, hsw', hrest, hlong⟩ := ih h'
      refine ⟨seq, List.mem_cons_of_mem _ hmem, hsw', hrest, ?_⟩
      intro hpf p hp hpsw
      have hpf' : PrefixFreeTable table' := by
        intro q₁ hq₁ q₂ hq₂ hq
        exact hpf q₁ (List.mem_cons_of_mem _ hq₁) q₂ (List.mem_cons_of_mem _ hq₂) hq
      rcases List.mem_cons.1 hp with hp' | hp'
      · rw [hp'] at hpsw
        exact absurd hpsw hsw
      · exact hlong hpf' p hp' hpsw

/-- Witness for the amended C8: a prefix-free two-entry table; the emitted
match for buffer `"abX"` is `"ab"`, and it is a longest match. -/
theorem decode_first_match_witness :
    ∃ seq, (seq, "k1".toList) ∈ [("ab".toList, "k1".toList), ("cd".toList, "k2".toList)] ∧
      startsWith seq "abX".toList = true ∧
      "X".toList = "abX".toList.drop seq.length ∧
      (PrefixFreeTable [("ab".toList, "k1".toList), ("cd".toList, "k2".toList)] →
        ∀ p ∈ [("ab".toList, "k1".toList), ("cd".toList, "k2".toList)],
          startsWith p.1 "abX".toList = true → p.1.length ≤ seq.length) :=
  decode_first_match [("ab".toList, "k1".toList), ("cd".toList, "k2".toList)]
    "abX".toList "k1".toList "X".toList rfl

/-! ## The reference-counted raw-terminal resource (`RawTerminal`,
src/termenu/keyboard.py, lines 103–158)

`open()` increments `self._opened` and returns early when the count exceeds 1;
only the 0→1 transition captures `self._oldterm = tcgetattr(...)` and switches
the terminal into raw mode (`~ICANON & ~ECHO`).  `close()` decrements and
returns early while the count stays positive; otherwise it restores the saved
attributes.  The terminal mode is embedded as a flag (the `ICANON|ECHO` bits)
plus an opaque remainder. -/

structure TermMode where
  icanonEcho : Bool
  rest : Int
deriving Repr, DecidableEq

/-- `newattr[3] = newattr[3] & ~termios.ICANON & ~termios.ECHO`. -/
def rawOf (m : TermMode) : TermMode := { m with icanonEcho := false }

structure RawTermState where
  opened : Int
  saved : Option TermMode
  mode : TermMode
deriving Repr, DecidableEq

inductive TOp
  | openOp | closeOp
deriving Repr, DecidableEq

inductive TEvent
  | captured | restored
deriving Repr, DecidableEq

/-- One `open()`/`close()` call.  `saved = none` at a restoring `close`
corresponds to the Python `AttributeError` (`self._oldterm` never assigned);
it is unreachable under the theorems' hypotheses and embedded as a no-op
restore. -/
def stepT (s : RawTermState) : TOp → RawTermState × List TEvent
  | .openOp =>
    if s.opened + 1 > 1 then ({ s with opened := s.opened + 1 }, [])
    else ({ opened := s.opened + 1, saved := some s.mode, mode := rawOf s.mode },
          [.captured])
  | .closeOp =>
    if s.opened - 1 > 0 then ({ s with opened := s.opened - 1 }, [])
    else ({ s with opened := s.opened - 1, mode := s.saved.getD s.mode },
          [.restored])

def runT (s : RawTermState) : List TOp → RawTermState × List TEvent
  | [] => (s, [])
  | op :: ops =>
    ((runT (stepT s op).1 ops).1, (stepT s op).2 ++ (runT (stepT s op).1 ops).2)

/-- Net open/close balance of a call sequence. -/
def bal : List TOp → Int
  | [] => 0
  | .openOp :: ops => 1 + bal ops
  | .closeOp :: ops => -1 + bal ops

theorem stepT_open_nested (s : RawTermState) (h : 1 ≤ s.opened) :
    stepT s .openOp = ({ s with opened := s.opened + 1 }, []) := by
  simp only [stepT]
  rw [if_pos (by omega)]

theorem stepT_close_nested (s : RawTermState) (h : 2 ≤ s.opened) :
    stepT s .closeOp = ({ s with opened := s.opened - 1 }, []) := by
  simp only [stepT]
  rw [if_pos (by omega)]

theorem runT_append (s : RawTermState) (l₁ l₂ : List TOp) :
    runT s (l₁ ++ l₂) =
      ((runT (runT s l₁).1 l₂).1, (runT s l₁).2 ++ (runT (runT s l₁).1 l₂).2) := by
  induction l₁ generalizing s with
  | nil => simp [runT]
  | cons op ops ih => simp [runT, ih]

/-- While the count stays positive, opens and closes only move the counter:
saved attributes, terminal mode and event log are untouched. -/
theorem runT_mid (ms : List TOp) (s : RawTermState)
    (hpos : 1 ≤ s.opened)
    (hpre : ∀ k, k ≤ ms.length → 1 ≤ s.opened + bal (ms.take k)) :
    runT s ms = ({ s with opened := s.opened + bal ms }, []) := by
  induction ms generalizing s with
  | nil =>
    simp [runT, bal]
  | cons op ops ih =>
    have hbridge : ∀ (t : RawTermState), t.saved = s.saved → t.mode = s.mode →
        ∀ (d : Int), t.opened = s.opened + d →
        (∀ k, k ≤ ops.length → 1 ≤ t.opened + bal (ops.take k)) → 1 ≤ t.opened →
        bal (op :: ops) = d + bal ops →
        runT t ops = ({ s with opened := s.opened + bal (op :: ops) }, []) := by
      intro t hsv hmo d hop hk h1 hbal
      rw [ih t h1 hk]
      have : t.opened + bal ops = s.opened + bal (op :: ops) := by
        rw [hop, hbal]; ring
      calc ({ t with opened := t.opened + bal ops }, ([] : List TEvent))
          = ({ opened := t.opened + bal ops, saved := t.saved, mode := t.mode }, []) := rfl
        _ = ({ opened := s.opened + bal (op :: ops), saved := s.saved, mode := s.mode }, []) := by
            rw [this, hsv, hmo]
        _ = ({ s with opened := s.opened + bal (op :: ops) }, []) := rfl
    cases op with
    | openOp =>
      have hstep := stepT_open_nested s hpos
      simp only [runT, hstep]
      have := hbridge { s with opened := s.opened + 1 } rfl rfl 1 rfl
        (by
          intro k hk
          have := hpre (k + 1) (by simpa using Nat.succ_le_succ hk)
          simp only [List.take_succ_cons, bal] at this
          dsimp only
          omega)
        (by dsimp only; omega)
        (by simp [bal])
      rw [this]
      simp
    | closeOp =>
      have h2 : 2 ≤ s.opened := by
        have := hpre 1 (by simp)
        simp only [List.take_succ_cons, List.take_zero, bal] at this
        omega
      have hstep := stepT_close_nested s h2
      simp only [runT, hstep]
      have := hbridge { s with opened := s.opened - 1 } rfl rfl (-1) (by dsimp only; ring)
        (by
          intro k hk
          have := hpre (k + 1) (by simpa using Nat.succ_le_succ hk)
          simp only [List.take_succ_cons, bal] at this
          dsimp only
          omega)
        (by dsimp only; omega)
        (by simp [bal])
      rw [this]
      simp

/-! ### C9 — capture on 0→1, nothing in between, restore exactly once -/

/-- **C9.** For a session `open(); ms; close()` with `ms` balanced and never
closing below the outer open (the nested-scope discipline of the
`with terminal:` blocks): starting from a closed resource in mode `m`, the
prior mode is captured exactly once, on the 0→1 transition; the nested opens
and closes of `ms` touch neither the saved attributes nor the terminal mode;
and the prior mode is restored exactly once, on the final close that returns
the count to zero — the event log is exactly `[captured, restored]` and the
terminal ends in its original mode. -/
theorem rawTerminal_refcount (ms : List TOp) (m : TermMode) (sv : Option TermMode)
    (hbal : bal ms = 0)
    (hpre : ∀ k, k ≤ ms.length → 0 ≤ bal (ms.take k)) :
    runT ⟨0, sv, m⟩ (TOp.openOp :: ms ++ [TOp.closeOp]) =
      (⟨0, some m, m⟩, [TEvent.captured, TEvent.restored]) ∧
    runT ⟨1, some m, rawOf m⟩ ms = (⟨1, some m, rawOf m⟩, []) := by
  have hmid : runT ⟨1, some m, rawOf m⟩ ms = (⟨1, some m, rawOf m⟩, []) := by
    rw [runT_mid ms ⟨1, some m, rawOf m⟩ (by norm_num)
      (by intro k hk; have := hpre k hk; dsimp only; omega)]
    rw [hbal]
    simp
  refine ⟨?_, hmid⟩
  have hopen : stepT ⟨0, sv, m⟩ .openOp = (⟨1, some m, rawOf m⟩, [.captured]) := by
    simp only [stepT]
    rw [if_neg (by norm_num)]
    norm_num
  have hclose : stepT ⟨1, some m, rawOf m⟩ .closeOp = (⟨0, some m, m⟩, [.restored]) := by
    simp only [stepT]
    rw [if_neg (by norm_num)]
    rfl
  have hsingle : ∀ (s : RawTermState) (op : TOp),
      runT s [op] = ((stepT s op).1, (stepT s op).2) := by
    intro s op
    simp [runT]
  have hsplit : runT ⟨1, some m, rawOf m⟩ (ms ++ [TOp.closeOp]) =
      (⟨0, some m, m⟩, [TEvent.restored]) := by
    rw [runT_append, hmid]
    dsimp only
    rw [hsingle, hclose]
    rfl
  have hshape : TOp.openOp :: ms ++ [TOp.closeOp] =
      [TOp.openOp] ++ (ms ++ [TOp.closeOp]) := rfl
  rw [hshape, runT_append, hsingle, hopen]
  dsimp only
  rw [hsplit]
  rfl

/-- Witness for C9: one nested open/close pair inside the outer session. -/
theorem rawTerminal_refcount_witness :
    runT ⟨0, none, ⟨true, 7⟩⟩
        (TOp.openOp :: [TOp.openOp, TOp.closeOp] ++ [TOp.closeOp]) =
      (⟨0, some ⟨true, 7⟩, ⟨true, 7⟩⟩, [TEvent.captured, TEvent.restored]) ∧
    runT ⟨1, some ⟨true, 7⟩, rawOf ⟨true, 7⟩⟩ [TOp.openOp, TOp.closeOp] =
      (⟨1, some ⟨true, 7⟩, rawOf ⟨true, 7⟩⟩, []) :=
  rawTerminal_refcount [TOp.openOp, TOp.closeOp] ⟨true, 7⟩ none (by decide)
    (by
      intro k hk
      have hk2 : k ≤ 2 := by simpa using hk
      interval_cases k <;> decide)

/-! ## Selection preservation across a rebuild
(`TermenuAdapter._selection_preserved`, src/termenu/app.py, lines 217–231,
and `TermenuAdapter._set_default`, lines 243–252)

`_refilter` runs inside `_selection_preserved()`: before the rebuild it
captures the active option's result value and the set of selected result
values over `_allOptions`; after the rebuild, if any value was selected, it
re-marks each visible option as selected iff its result is in that set
(the visible options alias the `_allOptions` objects, so the same update
applies to the visible members of `_allOptions`), and then calls
`_set_default(prev_active)`, which walks `_on_down()` once per index of the
first option carrying that result — starting from wherever the rebuild left
the cursor.

The base class `src/termenu/termenu.py` is absent from the source tree; its
`_get_active_option` and `_on_down` are modelled from the sibling
implementation src/termenu2/termenu.py (lines 115–116 and 133–138) and the
spec (§4.3). -/

structure AdapterState where
  allOptions : List MenuOption
  options : List MenuOption
  cursor : Int
  scroll : Int
  height : Int
  is_empty : Bool
deriving Repr, DecidableEq

/-- `self.options[self.scroll + self.cursor] if self.options else None`.
(The index is non-negative in every state considered here, so plain indexing
models the Python subscript.) -/
def getActiveOpt (st : AdapterState) : Option MenuOption :=
  if st.options.isEmpty then none
  else st.options.get? (st.scroll + st.cursor).toNat

/-- `{o.result for o in self._allOptions if o.selected}`. -/
def prevSelectedResults (st : AdapterState) : List (List Char) :=
  (st.allOptions.filter (fun o => o.selected)).map (fun o => o.result)

/-- The state change of `_refilter`'s body (without the wrapper). -/
def refilterState (texts : List (List Char)) (mode : FilterMode)
    (st : AdapterState) : AdapterState :=
  let r := refilter texts mode st.allOptions st.cursor.toNat
  { st with options := r.options, cursor := (r.cursor : Int), scroll := 0,
            is_empty := r.is_empty }

/-- `for option in self.options: option.selected = option.result in prev_selected`
(only when `prev_selected` is non-empty); the aliased `_allOptions` members
that are visible receive the same update. -/
def restoreSelection (texts : List (List Char)) (mode : FilterMode)
    (prevSel : List (List Char)) (st : AdapterState) : AdapterState :=
  if prevSel.isEmpty then st
  else
    { st with
      options := st.options.map (fun o =>
        { o with selected := decide (o.result ∈ prevSel) }),
      allOptions := st.allOptions.map (fun o =>
        if visiblePred texts mode o then
          { o with selected := decide (o.result ∈ prevSel) }
        else o) }

/-- Index of the first option whose predicate holds (`for index, o in
enumerate(self.options): if o.result == default: break`). -/
def firstIdxFrom (p : MenuOption → Bool) : List MenuOption → Option Nat
  | [] => none
  | o :: rest => if p o then some 0 else (firstIdxFrom p rest).map (· + 1)

/-- `for i in range(index): self._on_down()`. -/
def iterDown (height n : Int) (w : Win) : Nat → Win
  | 0 => w
  | k + 1 => iterDown height n (onDown height n w) k

/-- `TermenuAdapter._set_default`: no-op for a `None` default or an absent
result value; otherwise `index` down-steps from the *current* cursor. -/
def setDefault (st : AdapterState) (defaultRes : Option (List Char)) : AdapterState :=
  match defaultRes with
  | none => st
  | some d =>
    match firstIdxFrom (fun o => o.result == d) st.options with
    | none => st
    | some index =>
      let w := iterDown st.height (st.options.length : Int) ⟨st.cursor, st.scroll⟩ index
      { st with cursor := w.cursor, scroll := w.scroll }

/-- `_refilter` inside the `_selection_preserved` scope: the wrapper yields
immediately when the window is already empty. -/
def selectionPreservedRefilter (texts : List (List Char)) (mode : FilterMode)
    (st : AdapterState) : AdapterState :=
  if st.is_empty then refilterState texts mode st
  else
    setDefault
      (restoreSelection texts mode (prevSelectedResults st)
        (refilterState texts mode st))
      ((getActiveOpt st).map (fun o => o.result))

/-- The `prev_selected` set of `_selection_preserved(selection)`:
`{o.result for o in self._allOptions if o.selected} if selection is None
else set(selection)`. -/
def prevSelOf (sel : Option (List (List Char))) (st : AdapterState) :
    List (List Char) :=
  match sel with
  | none => prevSelectedResults st
  | some s => s

/-- The rebuild performed by `reset` inside the scope: `super().__init__`
re-creates the option objects from scratch (`_Option.__init__` starts with
`selected = False`), sets `cursor = 0`, `scroll = 0` and
`height = min(height, len(options))`; `_make_option_objects` aliases
`_allOptions = options[:]`.  `reset` passes no `default`, so the
`_set_default(None)` call inside `__init__` is a no-op. -/
def resetState (newOpts : List MenuOption) (hNew : Int)
    (st : AdapterState) : AdapterState :=
  { st with
    allOptions := newOpts.map (fun o => { o with selected := false }),
    options := newOpts.map (fun o => { o with selected := false }),
    cursor := 0, scroll := 0,
    height := min hNew (newOpts.length : Int) }

/-- The restore step after a reset: `options` and `_allOptions` are the same
fresh objects, so `option.selected = option.result in prev_selected` updates
both lists alike (skipped for an empty `prev_selected`). -/
def restoreSelAll (prevSel : List (List Char)) (st : AdapterState) :
    AdapterState :=
  if prevSel.isEmpty then st
  else
    { st with
      options := st.options.map (fun o =>
        { o with selected := decide (o.result ∈ prevSel) }),
      allOptions := st.allOptions.map (fun o =>
        { o with selected := decide (o.result ∈ prevSel) }) }

/-- `reset(..., selection, height, options, ...)` inside the
`_selection_preserved(selection)` scope: the wrapper yields immediately when
the window is already empty, else it re-creates the options and then restores
the selection and the active item. -/
def selectionPreservedReset (newOpts : List MenuOption) (hNew : Int)
    (sel : Option (List (List Char))) (st : AdapterState) : AdapterState :=
  if st.is_empty then resetState newOpts hNew st
  else
    setDefault
      (restoreSelAll (prevSelOf sel st) (resetState newOpts hNew st))
      ((getActiveOpt st).map (fun o => o.result))

/-! ### Concrete options for the C3 counterexample -/

def oA : MenuOption :=
  { text := "A".toList, result := "A".toList, filter_text := "z".toList,
    showAlways := true }
def oB : MenuOption :=
  { text := "B".toList, result := "B".toList, filter_text := "foo".toList }
def oC : MenuOption :=
  { text := "C".toList, result := "C".toList, filter_text := "foo".toList }
def oD : MenuOption :=
  { text := "D".toList, result := "D".toList, filter_text := "foo".toList }

def st0 : AdapterState :=
  { allOptions := [oA, oB, oC, oD], options := [oA, oB, oC, oD],
    cursor := 2, scroll := 0, height := 10, is_empty := false }

/-! ### C3 — the counterexample and the amended statement -/

/-- Counterexample to C3 as stated: options `A` (`showAlways`, not matching),
`B`, `C`, `D` (matching `"foo"`); the active option is `C`.  Re-filtering by
`"foo"` inside the selection-preserving scope keeps `C` visible, yet the
active option afterwards is `D`, not `C`: `_refilter` leaves the cursor on
the first *matching* option (`B`, index 1, because the `showAlways` option
`A` does not match), and `_set_default` then walks `index("C") = 2` steps
down from there, landing on `D`. -/
theorem selection_restore_cex :
    ((getActiveOpt st0).map (fun o => o.result) = some "C".toList) ∧
    ((selectionPreservedRefilter ["foo".toList] .and st0).options.any
        (fun o => o.result == "C".toList) = true) ∧
    ((getActiveOpt (selectionPreservedRefilter ["foo".toList] .and st0)).map
        (fun o => o.result) = some "D".toList) := by
  refine ⟨?_, ?_, ?_⟩ <;> decide

theorem firstIdx_some_get (p : MenuOption → Bool) (l : List MenuOption) (i : Nat)
    (h : firstIdxFrom p l = some i) :
    i < l.length ∧ ∃ a, l.get? i = some a ∧ p a = true := by
  induction l generalizing i with
  | nil => exact absurd h (by simp [firstIdxFrom])
  | cons o rest ih =>
    by_cases hp : p o = true
    · have : some 0 = some i := by simpa [firstIdxFrom, hp] using h
      obtain rfl : i = 0 := by injection this with h'; omega
      exact ⟨by simp, o, rfl, hp⟩
    · have h' : (firstIdxFrom p rest).map (· + 1) = some i := by
        simpa [firstIdxFrom, hp] using h
      obtain ⟨i', hi', rfl⟩ : ∃ i', firstIdxFrom p rest = some i' ∧ i' + 1 = i := by
        cases hfi : firstIdxFrom p rest with
        | none => rw [hfi] at h'; exact absurd h' (by simp)
        | some v => rw [hfi] at h'; exact ⟨v, rfl, by simpa using h'⟩
      obtain ⟨hlt, a, ha, hpa⟩ := ih i' hi'
      exact ⟨by simpa using Nat.succ_lt_succ hlt, a, by simpa using ha, hpa⟩

theorem onDown_pos (height n : Int) (w : Win) (hinv : WinInv height n w)
    (hlt : w.scroll + w.cursor < n - 1) :
    (onDown height n w).scroll + (onDown height n w).cursor
      = w.scroll + w.cursor + 1 := by
  obtain ⟨h1, h2, h3, h4⟩ := hinv
  unfold onDown
  split_ifs <;> first
    | (dsimp only; omega)
    | omega

theorem iterDown_pos (height n : Int) (k : Nat) (w : Win)
    (hinv : WinInv height n w) (hb : w.scroll + w.cursor + k ≤ n - 1) :
    (iterDown height n w k).scroll + (iterDown height n w k).cursor
      = w.scroll + w.cursor + k ∧
    WinInv height n (iterDown height n w k) := by
  induction k generalizing w with
  | zero =>
    refine ⟨?_, hinv⟩
    simp [iterDown]
  | succ k ih =>
    have hlt : w.scroll + w.cursor < n - 1 := by
      push_cast at hb
      omega
    have hstep := onDown_pos height n w hinv hlt
    have hinv' := winInv_onDown height n w hinv
    have hb' : (onDown height n w).scroll + (onDown height n w).cursor + k ≤ n - 1 := by
      rw [hstep]
      push_cast at hb ⊢
      omega
    obtain ⟨hpos, hi⟩ := ih (onDown height n w) hinv' hb'
    refine ⟨?_, hi⟩
    have hred : iterDown height n w (k + 1) = iterDown height n (onDown height n w) k := rfl
    rw [hred, hpos, hstep]
    push_cast
    ring

theorem restoreSelection_cursor (texts : List (List Char)) (mode : FilterMode)
    (sel : List (List Char)) (st : AdapterState) :
    (restoreSelection texts mode sel st).cursor = st.cursor ∧
    (restoreSelection texts mode sel st).scroll = st.scroll ∧
    (restoreSelection texts mode sel st).height = st.height ∧
    (restoreSelection texts mode sel st).options.length = st.options.length := by
  unfold restoreSelection
  split_ifs <;> simp

theorem setDefault_options (st : AdapterState) (d : Option (List Char)) :
    (setDefault st d).options = st.options ∧
    (setDefault st d).height = st.height := by
  unfold setDefault
  cases d with
  | none => exact ⟨rfl, rfl⟩
  | some dd =>
    cases hfi : firstIdxFrom (fun o => o.result == dd) st.options with
    | none => simp [hfi]
    | some j => simp [hfi]

theorem restoreSelAll_fields (sel : List (List Char)) (st : AdapterState) :
    (restoreSelAll sel st).cursor = st.cursor ∧
    (restoreSelAll sel st).scroll = st.scroll ∧
    (restoreSelAll sel st).height = st.height ∧
    (restoreSelAll sel st).options.length = st.options.length := by
  unfold restoreSelAll
  split_ifs <;> simp

/-- The `_set_default(prev_active)` walk restores the first occurrence of the
previously active result value whenever it starts from the top of the list
(`cursor = 0`, `scroll = 0`), as both rebuilds leave it when the rebuilt
cursor is on the first visible item. -/
theorem setDefault_active_c0 (st2 : AdapterState) (d : List Char) (j : Nat)
    (hc0 : st2.cursor = 0) (hs0 : st2.scroll = 0) (hh : 1 ≤ st2.height)
    (hfi : firstIdxFrom (fun o => o.result == d) st2.options = some j) :
    (getActiveOpt (setDefault st2 (some d))).map (fun o => o.result) = some d := by
  obtain ⟨hjlt, a, ha, hpa⟩ := firstIdx_some_get _ _ _ hfi
  have hinv0 : WinInv st2.height (st2.options.length : Int) ⟨st2.cursor, st2.scroll⟩ := by
    refine ⟨?_, ?_, ?_, ?_⟩ <;> dsimp only
    · rw [hc0]
    · rw [hc0]
      have : 0 < st2.options.length := Nat.lt_of_le_of_lt (Nat.zero_le j) hjlt
      have h1 : (1 : Int) ≤ (st2.options.length : Int) := by exact_mod_cast this
      omega
    · rw [hs0]
    · rw [hs0]
      have : 0 < st2.options.length := Nat.lt_of_le_of_lt (Nat.zero_le j) hjlt
      have h1 : (1 : Int) ≤ (st2.options.length : Int) := by exact_mod_cast this
      omega
  have hb : ((⟨st2.cursor, st2.scroll⟩ : Win)).scroll +
      ((⟨st2.cursor, st2.scroll⟩ : Win)).cursor + (j : Int) ≤
      (st2.options.length : Int) - 1 := by
    dsimp only
    rw [hc0, hs0]
    have : (j : Int) < (st2.options.length : Int) := by exact_mod_cast hjlt
    omega
  obtain ⟨hpos, _⟩ := iterDown_pos st2.height (st2.options.length : Int) j
    ⟨st2.cursor, st2.scroll⟩ hinv0 hb
  have hsd : setDefault st2 (some d) =
      { st2 with
        cursor := (iterDown st2.height (st2.options.length : Int)
          ⟨st2.cursor, st2.scroll⟩ j).cursor,
        scroll := (iterDown st2.height (st2.options.length : Int)
          ⟨st2.cursor, st2.scroll⟩ j).scroll } := by
    unfold setDefault
    dsimp only
    rw [hfi]
  have hwpos : (iterDown st2.height (st2.options.length : Int)
      ⟨st2.cursor, st2.scroll⟩ j).scroll +
      (iterDown st2.height (st2.options.length : Int)
      ⟨st2.cursor, st2.scroll⟩ j).cursor = (j : Int) := by
    rw [hpos]
    dsimp only
    rw [hc0, hs0]
    ring
  have hnonempty : st2.options.isEmpty = false := by
    cases hoe : st2.options.isEmpty with
    | false => rfl
    | true =>
      rw [List.isEmpty_iff] at hoe
      rw [hoe] at hjlt
      exact absurd hjlt (by simp)
  unfold getActiveOpt
  rw [hsd]
  dsimp only
  rw [hnonempty]
  simp only [Bool.false_eq_true, if_false]
  rw [hwpos]
  have hjnat : ((j : Int)).toNat = j := Int.toNat_natCast j
  rw [hjnat, ha]
  have hres : a.result = d := by simpa using hpa
  rw [show Option.map (fun (o : MenuOption) => o.result) (some a)
    = some a.result from rfl, hres]

/-- When the previously active result value is absent, the walk never starts
and the active item is the head of the rebuilt list (the first visible
item), the cursor having been left at the top. -/
theorem setDefault_fallback_c0 (st2 : AdapterState) (d : List Char)
    (hc0 : st2.cursor = 0) (hs0 : st2.scroll = 0)
    (hfi : firstIdxFrom (fun o => o.result == d) st2.options = none) :
    getActiveOpt (setDefault st2 (some d)) = st2.options.head? := by
  have hsd : setDefault st2 (some d) = st2 := by
    unfold setDefault
    dsimp only
    rw [hfi]
  rw [hsd]
  unfold getActiveOpt
  rw [hc0, hs0]
  have hz : ((0 : Int) + 0).toNat = 0 := rfl
  rw [hz]
  cases hoe : st2.options.isEmpty with
  | true =>
    rw [List.isEmpty_iff] at hoe
    rw [hoe]
    rfl
  | false =>
    rw [List.get?_zero]
    rfl

/-- **C3 (amended).** For every rebuild of the option list inside the
selection-preserving scope of a non-empty window — a `reset`
(`selectionPreservedReset`) or a re-filter (`selectionPreservedRefilter`):
(1)/(2) every option of the rebuilt list whose result value belongs to the
preserved selection is selected afterward, unconditionally;
(3)/(4) after a reset (which re-creates the options with `cursor = 0`,
`scroll = 0`), the previously active result value, if present, becomes
active again (its first occurrence), and otherwise the head of the rebuilt
list is active;
(5)/(6) after a re-filter the same two statements hold provided the
re-filter leaves the cursor on the first visible item (`r.cursor = 0`, i.e.
the first visible option itself matches); the counterexample shows the
active-item restoration fails otherwise. -/
theorem selection_preserved_rebuild (texts : List (List Char)) (mode : FilterMode)
    (newOpts : List MenuOption) (hNew : Int) (sel : Option (List (List Char)))
    (st : AdapterState) (hne : st.is_empty = false) :
    (∀ o ∈ (selectionPreservedRefilter texts mode st).options,
       o.result ∈ prevSelectedResults st → o.selected = true) ∧
    (∀ o ∈ (selectionPreservedReset newOpts hNew sel st).options,
       o.result ∈ prevSelOf sel st → o.selected = true) ∧
    (∀ rres : List Char, ∀ j : Nat, 1 ≤ hNew →
       (getActiveOpt st).map (fun o => o.result) = some rres →
       firstIdxFrom (fun o => o.result == rres)
           (selectionPreservedReset newOpts hNew sel st).options = some j →
       (getActiveOpt (selectionPreservedReset newOpts hNew sel st)).map
           (fun o => o.result) = some rres) ∧
    (∀ rres : List Char,
       (getActiveOpt st).map (fun o => o.result) = some rres →
       firstIdxFrom (fun o => o.result == rres)
           (selectionPreservedReset newOpts hNew sel st).options = none →
       getActiveOpt (selectionPreservedReset newOpts hNew sel st) =
         (selectionPreservedReset newOpts hNew sel st).options.head?) ∧
    (∀ rres : List Char, ∀ j : Nat,
       (refilter texts mode st.allOptions st.cursor.toNat).cursor = 0 →
       1 ≤ st.height →
       (getActiveOpt st).map (fun o => o.result) = some rres →
       firstIdxFrom (fun o => o.result == rres)
           (selectionPreservedRefilter texts mode st).options = some j →
       (getActiveOpt (selectionPreservedRefilter texts mode st)).map
           (fun o => o.result) = some rres) ∧
    (∀ rres : List Char,
       (refilter texts mode st.allOptions st.cursor.toNat).cursor = 0 →
       (getActiveOpt st).map (fun o => o.result) = some rres →
       firstIdxFrom (fun o => o.result == rres)
           (selectionPreservedRefilter texts mode st).options = none →
       getActiveOpt (selectionPreservedRefilter texts mode st) =
         (selectionPreservedRefilter texts mode st).options.head?) := by
  have hspr : selectionPreservedRefilter texts mode st =
      setDefault
        (restoreSelection texts mode (prevSelectedResults st)
          (refilterState texts mode st))
        ((getActiveOpt st).map (fun o => o.result)) := by
    unfold selectionPreservedRefilter
    rw [hne]
    rfl
  have hsprB : selectionPreservedReset newOpts hNew sel st =
      setDefault
        (restoreSelAll (prevSelOf sel st) (resetState newOpts hNew st))
        ((getActiveOpt st).map (fun o => o.result)) := by
    unfold selectionPreservedReset
    rw [hne]
    rfl
  have hst1s : (refilterState texts mode st).scroll = 0 := rfl
  have hst1h : (refilterState texts mode st).height = st.height := rfl
  obtain ⟨h2c, h2s, h2h, h2l⟩ := restoreSelection_cursor texts mode
    (prevSelectedResults st) (refilterState texts mode st)
  have hrc : (resetState newOpts hNew st).cursor = 0 := rfl
  have hrs : (resetState newOpts hNew st).scroll = 0 := rfl
  have hrh : (resetState newOpts hNew st).height
      = min hNew (newOpts.length : Int) := rfl
  have hrl : (resetState newOpts hNew st).options.length = newOpts.length := by
    unfold resetState
    simp
  obtain ⟨hBc, hBs, hBh, hBl⟩ := restoreSelAll_fields (prevSelOf sel st)
    (resetState newOpts hNew st)
  set st1 := refilterState texts mode st with hst1
  set st2 := restoreSelection texts mode (prevSelectedResults st) st1 with hst2
  set str := resetState newOpts hNew st with hstr
  set stB := restoreSelAll (prevSelOf sel st) str with hstB
  have hoptsA : (selectionPreservedRefilter texts mode st).options = st2.options := by
    rw [hspr]
    exact (setDefault_options st2 _).1
  have hoptsB : (selectionPreservedReset newOpts hNew sel st).options
      = stB.options := by
    rw [hsprB]
    exact (setDefault_options stB _).1
  have hBc0 : stB.cursor = 0 := by rw [hBc, hrc]
  have hBs0 : stB.scroll = 0 := by rw [hBs, hrs]
  have hlenB : stB.options.length = newOpts.length := by rw [hBl, hrl]
  refine ⟨?_, ?_, ?_, ?_, ?_, ?_⟩
  · -- (1) re-filter: selection preservation
    intro o ho hmem
    rw [hoptsA] at ho
    have hsel_ne : (prevSelectedResults st).isEmpty = false := by
      cases hsel : (prevSelectedResults st).isEmpty with
      | false => rfl
      | true =>
        rw [List.isEmpty_iff] at hsel
        rw [hsel] at hmem
        exact absurd hmem (List.not_mem_nil o.result)
    rw [hst2] at ho
    unfold restoreSelection at ho
    rw [hsel_ne] at ho
    simp only [Bool.false_eq_true, if_false, List.mem_map] at ho
    obtain ⟨o', _, rfl⟩ := ho
    simp only
    exact decide_eq_true hmem
  · -- (2) reset: selection preservation
    intro o ho hmem
    rw [hoptsB] at ho
    have hsel_ne : (prevSelOf sel st).isEmpty = false := by
      cases hsel : (prevSelOf sel st).isEmpty with
      | false => rfl
      | true =>
        rw [List.isEmpty_iff] at hsel
        rw [hsel] at hmem
        exact absurd hmem (List.not_mem_nil o.result)
    rw [hstB] at ho
    unfold restoreSelAll at ho
    rw [hsel_ne] at ho
    simp only [Bool.false_eq_true, if_false, List.mem_map] at ho
    obtain ⟨o', _, rfl⟩ := ho
    simp only
    exact decide_eq_true hmem
  · -- (3) reset: active restoration
    intro rres j hhN hact hfi
    rw [hoptsB] at hfi
    obtain ⟨hjlt, -, -, -⟩ := firstIdx_some_get _ _ _ hfi
    have hn1 : 1 ≤ newOpts.length := by
      rw [hlenB] at hjlt
      omega
    have hhB : 1 ≤ stB.height := by
      rw [hBh, hrh]
      have h1 : (1 : Int) ≤ (newOpts.length : Int) := by exact_mod_cast hn1
      omega
    have hB : selectionPreservedReset newOpts hNew sel st
        = setDefault stB (some rres) := by
      rw [hsprB, hact]
    rw [hB]
    exact setDefault_active_c0 stB rres j hBc0 hBs0 hhB hfi
  · -- (4) reset: fallback to the head of the rebuilt list
    intro rres hact hfi
    rw [hoptsB] at hfi
    have hB : selectionPreservedReset newOpts hNew sel st
        = setDefault stB (some rres) := by
      rw [hsprB, hact]
    rw [hB, (setDefault_options stB (some rres)).1]
    exact setDefault_fallback_c0 stB rres hBc0 hBs0 hfi
  · -- (5) re-filter: active restoration when the rebuilt cursor is 0
    intro rres j hr0 hh hact hfi
    have hst1c : st1.cursor = 0 := by
      rw [hst1]
      unfold refilterState
      dsimp only
      rw [hr0]
      rfl
    have hc0 : st2.cursor = 0 := by rw [h2c, hst1c]
    have hs0 : st2.scroll = 0 := by rw [h2s, hst1s]
    have hh2 : 1 ≤ st2.height := by
      rw [h2h, hst1h]
      exact hh
    rw [hoptsA] at hfi
    have hA : selectionPreservedRefilter texts mode st
        = setDefault st2 (some rres) := by
      rw [hspr, hact]
    rw [hA]
    exact setDefault_active_c0 st2 rres j hc0 hs0 hh2 hfi
  · -- (6) re-filter: fallback when the rebuilt cursor is 0
    intro rres hr0 hact hfi
    have hst1c : st1.cursor = 0 := by
      rw [hst1]
      unfold refilterState
      dsimp only
      rw [hr0]
      rfl
    have hc0 : st2.cursor = 0 := by rw [h2c, hst1c]
    have hs0 : st2.scroll = 0 := by rw [h2s, hst1s]
    rw [hoptsA] at hfi
    have hA : selectionPreservedRefilter texts mode st
        = setDefault st2 (some rres) := by
      rw [hspr, hact]
    rw [hA, (setDefault_options st2 (some rres)).1]
    exact setDefault_fallback_c0 st2 rres hc0 hs0 hfi

/-! Witness state for the amended C3: no `showAlways` option ahead of the
matches, `B` selected, `C` active; covered are both the re-filter by `"foo"`
and a reset to freshly built options. -/

def oBsel : MenuOption :=
  { text := "B".toList, result := "B".toList, filter_text := "foo".toList,
    selected := true }

def st0w : AdapterState :=
  { allOptions := [oBsel, oC, oD], options := [oBsel, oC, oD],
    cursor := 1, scroll := 0, height := 10, is_empty := false }

def newOptsW : List MenuOption := [oBsel, oC, oD]

/-- Witness for the amended C3 at the concrete state `st0w`. -/
theorem selection_preserved_rebuild_witness :
    (∀ o ∈ (selectionPreservedRefilter ["foo".toList] .and st0w).options,
       o.result ∈ prevSelectedResults st0w → o.selected = true) ∧
    (∀ o ∈ (selectionPreservedReset newOptsW 10 none st0w).options,
       o.result ∈ prevSelOf none st0w → o.selected = true) ∧
    (∀ rres : List Char, ∀ j : Nat, 1 ≤ (10 : Int) →
       (getActiveOpt st0w).map (fun o => o.result) = some rres →
       firstIdxFrom (fun o => o.result == rres)
           (selectionPreservedReset newOptsW 10 none st0w).options = some j →
       (getActiveOpt (selectionPreservedReset newOptsW 10 none st0w)).map
           (fun o => o.result) = some rres) ∧
    (∀ rres : List Char,
       (getActiveOpt st0w).map (fun o => o.result) = some rres →
       firstIdxFrom (fun o => o.result == rres)
           (selectionPreservedReset newOptsW 10 none st0w).options = none →
       getActiveOpt (selectionPreservedReset newOptsW 10 none st0w) =
         (selectionPreservedReset newOptsW 10 none st0w).options.head?) ∧
    (∀ rres : List Char, ∀ j : Nat,
       (refilter ["foo".toList] .and st0w.allOptions st0w.cursor.toNat).cursor = 0 →
       1 ≤ st0w.height →
       (getActiveOpt st0w).map (fun o => o.result) = some rres →
       firstIdxFrom (fun o => o.result == rres)
           (selectionPreservedRefilter ["foo".toList] .and st0w).options = some j →
       (getActiveOpt (selectionPreservedRefilter ["foo".toList] .and st0w)).map
           (fun o => o.result) = some rres) ∧
    (∀ rres : List Char,
       (refilter ["foo".toList] .and st0w.allOptions st0w.cursor.toNat).cursor = 0 →
       (getActiveOpt st0w).map (fun o => o.result) = some rres →
       firstIdxFrom (fun o => o.result == rres)
           (selectionPreservedRefilter ["foo".toList] .and st0w).options = none →
       getActiveOpt (selectionPreservedRefilter ["foo".toList] .and st0w) =
         (selectionPreservedRefilter ["foo".toList] .and st0w).options.head?) :=
  selection_preserved_rebuild ["foo".toList] .and newOptsW 10 none st0w rfl

/-! ## The `Colorized` markup text model (src/termenu/colors.py)

`Colorized.__new__` (lines 113–130) splits the input on `_RE_COLOR`
(`[A-Z_]+` name, optional `(...)` background, then `<<...>>` or `@{...}@`
with non-greedy content) and builds a token list: each non-match piece
becomes a plain `Token`; each match contributes one `ColoredToken` per line
of its content (with `Token("\n")` separators, the last one deleted when the
content does not end in a newline — `del self.tokens[-1]`, which removes the
*previous* token when the content is empty).  `ColoredToken.raw()`
re-wraps the text, choosing `@{...}@` when the text contains `<<` or `>>`
and `<<...>>` otherwise.  `Colorized.__getitem__` (lines 174–193) slices
each token by `[max(0, start-cursor) : stop-cursor]`, stops once
`cursor > stop`, joins the non-empty sliced tokens' raw forms and re-parses
— with `start = idx.start or 0` and `stop = idx.stop or len(self)`, so a
stop of `0` is treated as "unset". -/

end TermenuSpec
